import Mathlib

/-!
Shallow embedding of the `william-prophets-cli` Solana token CLI
(`src/lib.rs`, `src/main.rs`).

External effects (Solana RPC reads, HTTP GET, JSON decoding, URL parsing,
DNS resolution, config loading) and the decoders supplied by external
crates (`spl_token::state::Mint::unpack`, `mpl_token_metadata::accounts::
Metadata::from_bytes`) are modelled as fields of a `World` record: one
`World` fixes the outcome every external call would produce during one run.
The cryptographic primitives used by Solana program-derived-address
computation (`sha256` and the ed25519 on-curve test) are likewise
parameters, bundled in `CryptoPrims`; the PDA search loop itself
(`find_program_address`) is embedded concretely, following the Solana SDK.
Rust `Result<T, anyhow::Error>` becomes `Except String T`, with
`with_context` prepending the contextual message the way `anyhow::Context`
chains messages.
-/

namespace ProphetsCli

/-- A Solana public key: 32 raw bytes (`Pubkey` in the source). -/
abbrev Pubkey := List Nat

/-- Rust `pub const UNAVAILABLE: &str = "Not available";` (lib.rs line 16). -/
def UNAVAILABLE : String := "Not available"

/-- The NUL character `char::from(0)` used as fixed-width string padding. -/
def nulChar : Char := Char.ofNat 0

/-- Rust `str::trim_end_matches(char::from(0))`: remove every trailing NUL. -/
def trim_end_matches_nul (s : String) : String :=
  String.mk (List.reverse (List.dropWhile (fun c => c == nulChar) s.data.reverse))

/-- Rust `spl_token::state::Mint` — the fields the CLI uses (supply, decimals,
authorities, initialized flag). `COption<Pubkey>` becomes `Option Pubkey`. -/
structure Mint where
  mint_authority : Option Pubkey
  supply : Nat
  decimals : Nat
  is_initialized : Bool
  freeze_authority : Option Pubkey
deriving DecidableEq, Repr

/-- Rust `mpl_token_metadata::accounts::Metadata` — the fields the CLI uses.
The on-chain strings are fixed-width and NUL-padded. -/
structure Metadata where
  name : String
  symbol : String
  uri : String
deriving DecidableEq, Repr

/-- Rust `OffChainMetadata` (lib.rs lines 52-58): three optional JSON fields;
`website` is deserialized from the `external_url` key. -/
structure OffChainMetadata where
  description : Option String
  image : Option String
  website : Option String
deriving DecidableEq, Repr

/-- Rust `OffChainMetadata::default()` from `#[derive(Default)]`: all `None`. -/
def OffChainMetadata.default : OffChainMetadata :=
  { description := none, image := none, website := none }

/-- Rust `url::Url` as the CLI observes it: only `Url::domain()` is called. -/
structure Url where
  domain : Option String
deriving DecidableEq, Repr

/-- Rust `Config` (lib.rs lines 25-42): the single RPC endpoint setting. -/
structure Config where
  rpc_url : String
deriving DecidableEq, Repr

/-- Rust `Config::default()` (lib.rs lines 36-42). -/
def Config.default : Config :=
  { rpc_url := "https://api.mainnet-beta.solana.com" }

/-- An HTTP response body, as handed to the JSON decoder. -/
abbrev Response := String

/-- Cryptographic primitives used by Solana PDA derivation, supplied by the
`solana_program` crate: sha256 over a byte string, and the test whether a
32-byte hash lies on the ed25519 curve. -/
structure CryptoPrims where
  sha256 : List Nat → List Nat
  is_on_curve : List Nat → Bool

/-- The external environment of one run: every network call, external decoder
and the config store, as the single source of outcomes for that run. -/
structure World where
  /-- Rust `confy::load("solana_token_cli", None)` -/
  loadConfig : Except String Config
  /-- Rust `RpcClient::get_account_data(&pubkey)` -/
  getAccountData : Pubkey → Except String (List Nat)
  /-- Rust `spl_token::state::Mint::unpack(bytes)` -/
  unpackMint : List Nat → Except String Mint
  /-- Rust `mpl_token_metadata::accounts::Metadata::from_bytes(bytes)` -/
  metadataFromBytes : List Nat → Except String Metadata
  /-- Rust `reqwest::get(uri)` -/
  httpGet : String → Except String Response
  /-- Rust `Response::json::<OffChainMetadata>()` -/
  responseJson : Response → Except String OffChainMetadata
  /-- Rust `url::Url::parse(website)`, collapsed to `Option` as the CLI only
  tests `if let Ok(..)` -/
  urlParse : String → Option Url
  /-- Rust `TokioAsyncResolver::lookup_ip(domain)`: the list of resolved IPs
  (each IP abstracted to a number; only the count is used) -/
  lookupIp : String → Except String (List Nat)

/-- Rust `anyhow::Context::with_context`: prepend a contextual message on the
error path, leave the success path untouched. -/
def with_context (msg : String) : Except String α → Except String α
  | .ok a => .ok a
  | .error e => .error (msg ++ ": " ++ e)

/-- Rust `get_config` (lib.rs lines 45-50). -/
def get_config (w : World) : Except String Config :=
  with_context "Failed to load configuration" w.loadConfig

/-- Rust `const METADATA_SEED: &[u8; 8] = b"metadata";` (lib.rs line 15). -/
def METADATA_SEED : List Nat := (String.toList "metadata").map Char.toNat

/-- Rust `mpl_token_metadata::ID`, the constant Metaplex program identifier
`metaqbxxUerdq28cj1RbAWkYQm3ybzjb6a8bt518x1s`, as its 32 raw bytes. -/
def METAPLEX_PROGRAM_ID : Pubkey :=
  [11, 112, 101, 177, 227, 209, 124, 69, 56, 157, 82, 127, 107, 4, 195, 205,
   88, 184, 108, 115, 26, 160, 253, 181, 73, 182, 209, 188, 3, 248, 41, 70]

/-- The domain-separation marker `b"ProgramDerivedAddress"` appended by the
Solana SDK when hashing PDA seeds. -/
def PDA_MARKER : List Nat := (String.toList "ProgramDerivedAddress").map Char.toNat

/-- Rust `Pubkey::create_program_address` (Solana SDK): hash the concatenated
seeds, program id and marker; reject hashes that lie on the curve. -/
def create_program_address (cp : CryptoPrims) (seeds : List (List Nat))
    (program_id : Pubkey) : Except String Pubkey :=
  let buffer := seeds.flatten ++ program_id ++ PDA_MARKER
  let hash := cp.sha256 buffer
  if cp.is_on_curve hash then .error "InvalidSeeds" else .ok hash

/-- The bump-seed search loop of `Pubkey::find_program_address`: try bump
`fuel - 1` down to `0`, returning the first valid derived address. -/
def find_program_address_aux (cp : CryptoPrims) (seeds : List (List Nat))
    (program_id : Pubkey) : Nat → Option (Pubkey × Nat)
  | 0 => none
  | fuel + 1 =>
    match create_program_address cp (seeds ++ [[fuel]]) program_id with
    | .ok key => some (key, fuel)
    | .error _ => find_program_address_aux cp seeds program_id fuel

/-- Rust `Pubkey::find_program_address` (Solana SDK): bumps 255 down to 0; the
Rust version panics when no bump works, modelled here as `none`. -/
def find_program_address (cp : CryptoPrims) (seeds : List (List Nat))
    (program_id : Pubkey) : Option (Pubkey × Nat) :=
  find_program_address_aux cp seeds program_id 256

/-- Rust `get_metadata_pda` (lib.rs lines 61-69): derive the Metaplex metadata
PDA from the mint address, the constant seed `b"metadata"` and the constant
Metaplex program id. -/
def get_metadata_pda (cp : CryptoPrims) (mint : Pubkey) : Option Pubkey :=
  (find_program_address cp [METADATA_SEED, METAPLEX_PROGRAM_ID, mint]
      METAPLEX_PROGRAM_ID).map Prod.fst

/-- Rust `fetch_on_chain_metadata` (lib.rs lines 72-87). The Rust
`find_program_address` panic (no viable bump) is modelled as a run-aborting
error, matching its observable effect (nonzero exit, no stdout). -/
def fetch_on_chain_metadata (cp : CryptoPrims) (w : World)
    (mint_pubkey : Pubkey) : Except String Metadata :=
  match get_metadata_pda cp mint_pubkey with
  | none => .error "panic: Unable to find a viable program address bump seed"
  | some metadata_pubkey => do
    let account_data ← with_context "Failed to load Metaplex metadata"
      (w.getAccountData metadata_pubkey)
    let metadata ← with_context "Failed to parse Metaplex metadata"
      (w.metadataFromBytes account_data)
    pure metadata

/-- Rust `fetch_off_chain_metadata` (lib.rs lines 90-104): trim the trailing NUL
padding off the URI, HTTP-GET it, decode the body as JSON. -/
def fetch_off_chain_metadata (w : World) (uri : String) :
    Except String OffChainMetadata := do
  let uri := trim_end_matches_nul uri
  let response ← with_context "Failed to load offchain metadata" (w.httpGet uri)
  let offchain_metadata ← with_context "Failed to parse offchain metadata into JSON"
    (w.responseJson response)
  pure offchain_metadata

/-- Rust `fetch_dns_records` (lib.rs lines 107-124): count the resolved IP
records of the domain of the website, collapsing every failure mode to `none`. -/
def fetch_dns_records (w : World) (website : Option String) : Option String :=
  match website with
  | some website =>
    match w.urlParse website with
    | some parsed_url =>
      match parsed_url.domain with
      | some domain =>
        match w.lookupIp domain with
        | .ok response => some (toString response.length)
        | .error _ => none
      | none => none
    | none => none
  | none => none

/-- Rust `fetch_token_mintdata` (lib.rs lines 127-139). -/
def fetch_token_mintdata (w : World) (mint_pubkey : Pubkey) :
    Except String Mint := do
  let account_data ← with_context "Failed to load mint account data"
    (w.getAccountData mint_pubkey)
  let mint_info ← with_context "Failed to parse mint account data"
    (w.unpackMint account_data)
  pure mint_info

/-- Rust `fetch_token_metadata` (lib.rs lines 141-160): on-chain metadata first
(fatal on failure), then the off-chain fetch with `unwrap_or(default)`, then
the DNS count, returning the NUL-trimmed name and symbol. -/
def fetch_token_metadata (cp : CryptoPrims) (w : World) (mint_pubkey : Pubkey) :
    Except String (String × String × OffChainMetadata × Option String) := do
  let metadata ← fetch_on_chain_metadata cp w mint_pubkey
  let offchain_metadata :=
    match fetch_off_chain_metadata w metadata.uri with
    | .ok m => m
    | .error _ => OffChainMetadata.default
  let dns_records := fetch_dns_records w offchain_metadata.website
  pure (trim_end_matches_nul metadata.name,
        trim_end_matches_nul metadata.symbol,
        offchain_metadata,
        dns_records)

/-- Rust `pubkey_to_string` (lib.rs lines 162-168): base58 render a present
authority, `"Not available"` for an absent one. `Pubkey::to_string` itself
is the standard base58 encoding, embedded below as `pubkey_to_base58`. -/
def base58Alphabet : List Char :=
  String.toList "123456789ABCDEFGHJKLMNPQRSTUVWXYZabcdefghijkmnopqrstuvwxyz"

/-- Little-endian base58 digits of a natural number. -/
def natToBase58 (n : Nat) : List Char :=
  if h : n = 0 then []
  else base58Alphabet.getD (n % 58) '1' :: natToBase58 (n / 58)
decreasing_by exact Nat.div_lt_self (Nat.pos_of_ne_zero h) (by decide)

/-- Base58 text form of a 32-byte key (the `Display` impl of `Pubkey`): one `1` per
leading zero byte, then the big-endian base58 digits of the value. -/
def pubkey_to_base58 (pk : Pubkey) : String :=
  let value := pk.foldl (fun acc b => acc * 256 + b) 0
  String.mk ((pk.takeWhile (fun b => b == 0)).map (fun _ => '1')
    ++ (natToBase58 value).reverse)

/-- Rust `pubkey_to_string` (lib.rs lines 162-168). -/
def pubkey_to_string (pubkey : Option Pubkey) : String :=
  match pubkey with
  | some pubkey => pubkey_to_base58 pubkey
  | none => UNAVAILABLE

/-- Rust `string_or_not_available` (lib.rs lines 170-178). -/
def string_or_not_available (info_str : Option String) : String :=
  match info_str with
  | some info_str => if ¬ info_str.isEmpty then info_str else UNAVAILABLE
  | none => UNAVAILABLE

/-- Observable outcome of one CLI run: the process exit code, the report
lines written to stdout, and the diagnostic printed to stderr (the message
of the `anyhow::Error` returned by `main`, printed by the Rust runtime). -/
structure RunResult where
  exitCode : Nat
  stdout : List String
  stderrMsg : Option String
deriving DecidableEq, Repr

/-- Rust `main` (main.rs lines 13-90), after argument parsing: load the config,
join the two fetches, propagate a fatal error with the invalid-token
context, otherwise print the ten report lines. `tokio::join!` is embedded
by evaluating both fetch results against the same `World` before either is
examined; the spinner and `writeln!` plumbing have no observable effect
beyond the lines themselves. -/
def main (cp : CryptoPrims) (w : World) (token_address : Pubkey) : RunResult :=
  match get_config w with
  | .error e => { exitCode := 1, stdout := [],
                  stderrMsg := some ("Unable to load CLI config: " ++ e) }
  | .ok _cfg =>
    let metadata_rest := fetch_token_metadata cp w token_address
    let mintdata_res := fetch_token_mintdata w token_address
    match with_context
        "Failed to retrieve token metadata, it\x27s likely because the token address is invalid"
        metadata_rest with
    | .error e => { exitCode := 1, stdout := [], stderrMsg := some e }
    | .ok (token_name, token_symbol, offchain_data, dns_records) =>
      match with_context
          "Failed to retrieve token mint data, it\x27s likely because the token address is invalid"
          mintdata_res with
      | .error e => { exitCode := 1, stdout := [], stderrMsg := some e }
      | .ok mintdata =>
        { exitCode := 0,
          stdout :=
            [ "Token Name: " ++ token_name,
              "Token Symbol: " ++ token_symbol,
              "Total Supply: " ++ toString mintdata.supply,
              "Decimals: " ++ toString mintdata.decimals,
              "Mint Authority: " ++ pubkey_to_string mintdata.mint_authority,
              "Freeze Authority: " ++ pubkey_to_string mintdata.freeze_authority,
              "Token Description: " ++ string_or_not_available offchain_data.description,
              "Token Image: " ++ string_or_not_available offchain_data.image,
              "Token Website: " ++ string_or_not_available offchain_data.website,
              "Number of DNS records: " ++ string_or_not_available dns_records ],
          stderrMsg := none }

/-- A concrete `CryptoPrims` used to instantiate witnesses: a stand-in hash
and an on-curve test that always reports off-curve. -/
def cpW : CryptoPrims :=
  { sha256 := fun l => l.take 32, is_on_curve := fun _ => false }

/-- A concrete token address for the witnesses. -/
def addrW : Pubkey := List.replicate 32 2

/-- A concrete world whose resolver succeeds with an empty record set. -/
def wDns : World :=
  { loadConfig := .ok Config.default
    getAccountData := fun _ => .error "AccountNotFound"
    unpackMint := fun _ => .error "InvalidMintLayout"
    metadataFromBytes := fun _ => .error "InvalidMetadataLayout"
    httpGet := fun _ => .error "HttpError"
    responseJson := fun _ => .error "JsonError"
    urlParse := fun _ => some { domain := some "example.com" }
    lookupIp := fun _ => .ok [] }

/-- A concrete decoded mint record for the witness worlds. -/
def mintW : Mint :=
  { mint_authority := none, supply := 1000000, decimals := 6,
    is_initialized := true, freeze_authority := none }

/-- A concrete decoded metadata record for the failing-transport world. -/
def mdOff : Metadata := { name := "Name", symbol := "SYM", uri := "https://uri" }

/-- A concrete world whose on-chain reads succeed and whose HTTP transport
fails. -/
def wOff : World :=
  { loadConfig := .ok Config.default
    getAccountData := fun _ => .ok []
    unpackMint := fun _ => .ok mintW
    metadataFromBytes := fun _ => .ok mdOff
    httpGet := fun _ => .error "HttpError"
    responseJson := fun _ => .error "JsonError"
    urlParse := fun _ => none
    lookupIp := fun _ => .error "DnsError" }

/-- A concrete decoded mint record with a present mint authority. -/
def mintOk : Mint :=
  { mint_authority := some (List.replicate 32 0), supply := 1000000,
    decimals := 6, is_initialized := true, freeze_authority := none }

/-- A concrete decoded metadata record carrying NUL padding. -/
def mdOk : Metadata :=
  { name := "Name\x00\x00", symbol := "SYM\x00", uri := "https://uri\x00" }

/-- A concrete decoded off-chain document with a website. -/
def ocOk : OffChainMetadata :=
  { description := some "A token", image := none,
    website := some "https://example.com" }

/-- A concrete world in which every stage succeeds: NUL-padded on-chain
strings, a populated off-chain document and a two-record DNS answer. -/
def wOk : World :=
  { loadConfig := .ok Config.default
    getAccountData := fun _ => .ok []
    unpackMint := fun _ => .ok mintOk
    metadataFromBytes := fun _ => .ok mdOk
    httpGet := fun _ => .ok "body"
    responseJson := fun _ => .ok ocOk
    urlParse := fun _ => some { domain := some "example.com" }
    lookupIp := fun _ => .ok [1, 2] }

/-- Decidable equality for `Except`, used to evaluate witnesses. -/
instance {ε α : Type _} [DecidableEq ε] [DecidableEq α] :
    DecidableEq (Except ε α) := fun x y =>
  match x, y with
  | .ok a, .ok b =>
    if h : a = b then .isTrue (congrArg Except.ok h)
    else .isFalse fun hc => h (Except.ok.inj hc)
  | .error a, .error b =>
    if h : a = b then .isTrue (congrArg Except.error h)
    else .isFalse fun hc => h (Except.error.inj hc)
  | .ok _, .error _ => .isFalse fun hc => Except.noConfusion hc
  | .error _, .ok _ => .isFalse fun hc => Except.noConfusion hc

/-! ## Helper lemmas -/

/-- Dropping a prefix twice with the same predicate is the same as once. -/
theorem dropWhile_dropWhile_self (p : α → Bool) (l : List α) :
    (l.dropWhile p).dropWhile p = l.dropWhile p := by
  induction l with
  | nil => rfl
  | cons a l ih =>
    cases hp : p a <;> simp [List.dropWhile_cons, hp, ih]

/-- The head surviving a `dropWhile` does not satisfy the predicate. -/
theorem head?_dropWhile_false (p : α → Bool) (l : List α) (c : α)
    (h : (l.dropWhile p).head? = some c) : p c = false := by
  induction l with
  | nil => simp at h
  | cons a l ih =>
    cases hp : p a
    · rw [List.dropWhile_cons, if_neg (by simp [hp])] at h
      simp at h
      rw [← h, hp]
    · rw [List.dropWhile_cons, if_pos (by simp [hp])] at h
      exact ih h

theorem trim_data (s : String) :
    (trim_end_matches_nul s).data =
      (List.dropWhile (fun c => c == nulChar) s.data.reverse).reverse := rfl

/-- The trimmed string never ends in a NUL character. -/
theorem trim_no_trailing_nul (s : String) :
    (trim_end_matches_nul s).data.getLast? ≠ some nulChar := by
  rw [trim_data, List.getLast?_reverse]
  intro h
  have hfalse := head?_dropWhile_false (fun c => c == nulChar) s.data.reverse nulChar h
  simp at hfalse

/-- Rust `Nat.toDigitsCore` never erases the accumulated digits. -/
theorem toDigitsCore_ne_nil (b : Nat) :
    ∀ (fuel n : Nat) (ds : List Char), ds ≠ [] → Nat.toDigitsCore b fuel n ds ≠ [] := by
  intro fuel
  induction fuel with
  | zero => intro n ds h; simpa [Nat.toDigitsCore] using h
  | succ f ih =>
    intro n ds h
    rw [Nat.toDigitsCore]
    by_cases hq : n / b = 0
    · simp [hq]
    · simp only [if_neg hq]
      exact ih (n / b) (Nat.digitChar (n % b) :: ds) (by simp)

/-- Decimal digit lists are never empty. -/
theorem toDigits_ne_nil (n : Nat) : Nat.toDigits 10 n ≠ [] := by
  rw [Nat.toDigits, Nat.toDigitsCore]
  by_cases hq : n / 10 = 0
  · simp [hq]
  · simp only [if_neg hq]
    exact toDigitsCore_ne_nil 10 n (n / 10) _ (by simp)

/-- The decimal rendering of a natural number is never the empty string. -/
theorem repr_ne_empty (n : Nat) : Nat.repr n ≠ "" := by
  intro h
  have hd := congrArg String.data h
  simp only [Nat.repr, List.asString] at hd
  exact toDigits_ne_nil n hd

theorem repr_isEmpty_false (n : Nat) : (Nat.repr n).isEmpty = false := by
  rw [Bool.eq_false_iff]
  intro h
  exact repr_ne_empty n ((String.isEmpty_iff _).mp h)

/-! ## Claim theorems -/

/-- C7: stripping trailing NUL padding is idempotent — for every string `s`,
`trim_end_matches_nul (trim_end_matches_nul s) = trim_end_matches_nul s`. -/
theorem trim_end_matches_nul_idempotent (s : String) :
    trim_end_matches_nul (trim_end_matches_nul s) = trim_end_matches_nul s := by
  apply String.ext
  rw [trim_data, trim_data, List.reverse_reverse, dropWhile_dropWhile_self]

/-- C9: at the output-formatting boundary, an absent string and a present
but empty string both render as the sentinel `"Not available"`, and every
non-empty string renders unchanged. -/
theorem string_or_not_available_spec :
    string_or_not_available none = "Not available" ∧
    string_or_not_available (some "") = "Not available" ∧
    ∀ s : String, s ≠ "" → string_or_not_available (some s) = s := by
  refine ⟨rfl, rfl, ?_⟩
  intro s hs
  have hne : s.isEmpty = false := by
    rw [Bool.eq_false_iff]
    intro h
    exact hs ((String.isEmpty_iff _).mp h)
  simp [string_or_not_available, hne]

/-- Witness for C9 at the concrete non-empty string `"test"`. -/
theorem string_or_not_available_spec_witness :
    string_or_not_available (some "test") = "test" :=
  string_or_not_available_spec.2.2 "test" (by decide)

/-- If any bump below the fuel yields an off-curve hash, the bump search
succeeds. -/
theorem find_program_address_aux_isSome (cp : CryptoPrims)
    (seeds : List (List Nat)) (pid : Pubkey) :
    ∀ fuel : Nat,
      (∃ b, b < fuel ∧
        cp.is_on_curve (cp.sha256
          ((seeds ++ [[b]]).flatten ++ pid ++ PDA_MARKER)) = false) →
      (find_program_address_aux cp seeds pid fuel).isSome = true := by
  intro fuel
  induction fuel with
  | zero => rintro ⟨b, hb, -⟩; omega
  | succ f ih =>
    rintro ⟨b, hb, hcurve⟩
    show (match create_program_address cp (seeds ++ [[f]]) pid with
      | .ok key => some (key, f)
      | .error _ => find_program_address_aux cp seeds pid f).isSome = true
    cases hc : create_program_address cp (seeds ++ [[f]]) pid with
    | ok key => rfl
    | error e =>
      simp only []
      apply ih
      refine ⟨b, ?_, hcurve⟩
      rcases Nat.lt_succ_iff_lt_or_eq.mp hb with h | h
      · exact h
      · exfalso
        subst h
        simp [create_program_address] at hc
        have hcurve2 : cp.is_on_curve
            (cp.sha256 (seeds.flatten ++ b :: (pid ++ PDA_MARKER))) = false := by
          simpa [List.append_assoc] using hcurve
        rw [hcurve2] at hc
        simp at hc

/-- C5: `get_metadata_pda` is deterministic and pure — equal token
addresses yield the identical derived address — and the derivation uses
exactly the constant seed bytes `b"metadata"` and the constant Metaplex
program identifier; whenever some bump seed below 256 hashes off-curve
(the always-true case in practice), the derivation succeeds. -/
theorem get_metadata_pda_deterministic (cp : CryptoPrims) (m₁ m₂ : Pubkey)
    (h : m₁ = m₂) :
    get_metadata_pda cp m₁ = get_metadata_pda cp m₂ ∧
    get_metadata_pda cp m₁ =
      (find_program_address cp [METADATA_SEED, METAPLEX_PROGRAM_ID, m₁]
        METAPLEX_PROGRAM_ID).map Prod.fst ∧
    METADATA_SEED = [109, 101, 116, 97, 100, 97, 116, 97] ∧
    ∀ b, b < 256 →
      cp.is_on_curve (cp.sha256
        (([METADATA_SEED, METAPLEX_PROGRAM_ID, m₁] ++ [[b]]).flatten ++
          METAPLEX_PROGRAM_ID ++ PDA_MARKER)) = false →
      (get_metadata_pda cp m₁).isSome = true := by
  refine ⟨by rw [h], rfl, by decide, ?_⟩
  intro b hb hcurve
  unfold get_metadata_pda find_program_address
  rw [Option.isSome_map']
  exact find_program_address_aux_isSome cp _ _ 256 ⟨b, hb, hcurve⟩

/-- Witness for C5 at the concrete address `addrW`. -/
theorem get_metadata_pda_deterministic_witness :
    (get_metadata_pda cpW addrW).isSome = true :=
  (get_metadata_pda_deterministic cpW addrW addrW rfl).2.2.2 255 (by decide) rfl

/-- C3: the DNS counter degrades every failure mode to `none` and never
aborts — `none` exactly when the website is absent, URL parsing fails, no
domain is extractable, or the resolver errors; a successful resolver call
yields the concrete count (also for a zero-length result set), and that
count renders as itself, never as the `"Not available"` sentinel. -/
theorem fetch_dns_records_spec (w : World) (website : Option String) :
    fetch_dns_records w none = none ∧
    (∀ s, w.urlParse s = none → fetch_dns_records w (some s) = none) ∧
    (∀ s u, w.urlParse s = some u → u.domain = none →
      fetch_dns_records w (some s) = none) ∧
    (∀ s u d e, w.urlParse s = some u → u.domain = some d →
      w.lookupIp d = .error e → fetch_dns_records w (some s) = none) ∧
    (∀ s u d ips, w.urlParse s = some u → u.domain = some d →
      w.lookupIp d = .ok ips →
      fetch_dns_records w (some s) = some (toString ips.length) ∧
      string_or_not_available (some (toString ips.length)) =
        toString ips.length) ∧
    (fetch_dns_records w website = none ↔
      ¬ ∃ s u d ips, website = some s ∧ w.urlParse s = some u ∧
        u.domain = some d ∧ w.lookupIp d = .ok ips) := by
  refine ⟨rfl, ?_, ?_, ?_, ?_, ?_⟩
  · intro s hu
    simp [fetch_dns_records, hu]
  · intro s u hu hd
    simp [fetch_dns_records, hu, hd]
  · intro s u d e hu hd hl
    simp [fetch_dns_records, hu, hd, hl]
  · intro s u d ips hu hd hl
    refine ⟨by simp [fetch_dns_records, hu, hd, hl], ?_⟩
    have hne : (toString ips.length).isEmpty = false := repr_isEmpty_false _
    simp [string_or_not_available, hne]
  · cases website with
    | none =>
      simp only [fetch_dns_records]
      constructor
      · rintro - ⟨s, u, d, ips, hs, -⟩
        exact Option.noConfusion hs
      · intro _
        trivial
    | some s =>
      cases hu : w.urlParse s with
      | none =>
        simp only [fetch_dns_records, hu]
        constructor
        · rintro - ⟨s', u, d, ips, hs, hu', -⟩
          rw [← Option.some.injEq .. |>.mp hs] at hu'
          rw [hu] at hu'
          exact Option.noConfusion hu'
        · intro _
          trivial
      | some u =>
        cases hd : u.domain with
        | none =>
          simp only [fetch_dns_records, hu, hd]
          constructor
          · rintro - ⟨s', u', d, ips, hs, hu', hd', -⟩
            rw [← Option.some.injEq .. |>.mp hs, hu] at hu'
            rw [← Option.some.injEq .. |>.mp hu', hd] at hd'
            exact Option.noConfusion hd'
          · intro _
            trivial
        | some d =>
          cases hl : w.lookupIp d with
          | error e =>
            simp only [fetch_dns_records, hu, hd, hl]
            constructor
            · rintro - ⟨s', u', d', ips, hs, hu', hd', hl'⟩
              rw [← Option.some.injEq .. |>.mp hs, hu] at hu'
              rw [← Option.some.injEq .. |>.mp hu', hd] at hd'
              rw [← Option.some.injEq .. |>.mp hd', hl] at hl'
              exact Except.noConfusion hl'
            · intro _
              trivial
          | ok ips =>
            simp only [fetch_dns_records, hu, hd, hl]
            constructor
            · intro hcontr
              exact Option.noConfusion hcontr
            · intro hn
              exact absurd ⟨s, u, d, ips, rfl, hu, hd, hl⟩ hn

/-- Witness for C3: a zero-length resolver result yields the concrete count
`"0"`, rendered as `"0"` and not as the sentinel. -/
theorem fetch_dns_records_spec_witness :
    fetch_dns_records wDns (some "https://example.com") = some "0" ∧
    string_or_not_available (some "0") = "0" :=
  (fetch_dns_records_spec wDns (some "https://example.com")).2.2.2.2.1
    "https://example.com" { domain := some "example.com" } "example.com" []
    rfl rfl rfl

theorem with_context_ok (msg : String) (a : α) :
    with_context msg (.ok a) = .ok a := rfl

theorem with_context_error (msg e : String) :
    with_context msg (Except.error e : Except String α) =
      .error (msg ++ ": " ++ e) := rfl

/-- A failing on-chain metadata read propagates unchanged through
`fetch_token_metadata`. -/
theorem fetch_token_metadata_error_of_on_chain (cp : CryptoPrims) (w : World)
    (mint : Pubkey) (e : String)
    (h : fetch_on_chain_metadata cp w mint = .error e) :
    fetch_token_metadata cp w mint = .error e := by
  simp [fetch_token_metadata, h]

/-- Shared shape lemma: when the on-chain read succeeds but the off-chain
fetch fails, `fetch_token_metadata` substitutes the all-`None` record and a
`none` DNS count. -/
theorem fetch_token_metadata_offchain_default (cp : CryptoPrims) (w : World)
    (mint : Pubkey) (md : Metadata) (e : String)
    (hon : fetch_on_chain_metadata cp w mint = .ok md)
    (hoff : fetch_off_chain_metadata w md.uri = .error e) :
    fetch_token_metadata cp w mint =
      .ok (trim_end_matches_nul md.name, trim_end_matches_nul md.symbol,
        { description := none, image := none, website := none }, none) := by
  simp [fetch_token_metadata, hon, hoff, OffChainMetadata.default,
    fetch_dns_records]

/-- A successful `fetch_token_metadata` result always carries the
NUL-trimmed on-chain name and symbol. -/
theorem fetch_token_metadata_ok_inv (cp : CryptoPrims) (w : World)
    (mint : Pubkey) (n s : String) (oc : OffChainMetadata) (d : Option String)
    (h : fetch_token_metadata cp w mint = .ok (n, s, oc, d)) :
    ∃ md, fetch_on_chain_metadata cp w mint = .ok md ∧
      n = trim_end_matches_nul md.name ∧
      s = trim_end_matches_nul md.symbol := by
  cases hon : fetch_on_chain_metadata cp w mint with
  | error e =>
    rw [fetch_token_metadata_error_of_on_chain cp w mint e hon] at h
    exact Except.noConfusion h
  | ok md =>
    refine ⟨md, rfl, ?_, ?_⟩ <;>
    · simp [fetch_token_metadata, hon] at h
      simp [h.1.symm, h.2.1.symm]

/-- C2: whenever the off-chain fetch fails (transport or JSON decode), the
pipeline does not fail — `fetch_token_metadata` substitutes the fully-empty
`OffChainMetadata` record (description, image, website all absent) and
still returns the rest of the result successfully. -/
theorem fetch_token_metadata_offchain_failure (cp : CryptoPrims) (w : World)
    (mint : Pubkey) (md : Metadata) (e : String)
    (hon : fetch_on_chain_metadata cp w mint = .ok md)
    (hoff : fetch_off_chain_metadata w md.uri = .error e) :
    fetch_token_metadata cp w mint =
      .ok (trim_end_matches_nul md.name, trim_end_matches_nul md.symbol,
        { description := none, image := none, website := none }, none) :=
  fetch_token_metadata_offchain_default cp w mint md e hon hoff

/-- Witness for C2: a failing HTTP transport yields the empty record and a
successful result. -/
theorem fetch_token_metadata_offchain_failure_witness :
    fetch_token_metadata cpW wOff addrW =
      .ok ("Name", "SYM",
        { description := none, image := none, website := none }, none) :=
  (fetch_token_metadata_offchain_failure cpW wOff addrW mdOff
    "Failed to load offchain metadata: HttpError" (by decide)
    (by decide)).trans (by decide)

/-- C10: a failed off-chain fetch forces `website = none` in the
substituted record and hence an absent DNS count; moreover the DNS counter
consulted with an absent website returns `none` in every world, i.e.
without any resolver call having an effect on the outcome. -/
theorem offchain_failure_no_dns (cp : CryptoPrims) (w : World) (mint : Pubkey)
    (md : Metadata) (e : String) (n s : String) (oc : OffChainMetadata)
    (d : Option String)
    (hon : fetch_on_chain_metadata cp w mint = .ok md)
    (hoff : fetch_off_chain_metadata w md.uri = .error e)
    (hres : fetch_token_metadata cp w mint = .ok (n, s, oc, d)) :
    oc.website = none ∧ d = none ∧
    ∀ w2 : World, fetch_dns_records w2 none = none := by
  have hshape := fetch_token_metadata_offchain_default cp w mint md e hon hoff
  rw [hres] at hshape
  simp only [Except.ok.injEq, Prod.mk.injEq] at hshape
  refine ⟨?_, hshape.2.2.2, fun _ => rfl⟩
  rw [hshape.2.2.1]

/-- Witness for C10 at the concrete failing-transport world `wOff`. -/
theorem offchain_failure_no_dns_witness :
    OffChainMetadata.website
        { description := none, image := none, website := none } = none ∧
    (none : Option String) = none ∧
    ∀ w2 : World, fetch_dns_records w2 none = none :=
  offchain_failure_no_dns cpW wOff addrW mdOff
    "Failed to load offchain metadata: HttpError" "Name" "SYM"
    { description := none, image := none, website := none } none
    (by decide) (by decide) (by decide)

/-- C1: when either on-chain read fails (and the config loaded, so the
reads were actually issued), the run exits nonzero, prints no report line
to stdout, and its diagnostic says the token address is likely invalid. -/
theorem main_fatal_on_chain_failure (cp : CryptoPrims) (w : World)
    (addr : Pubkey) (cfg : Config)
    (hcfg : w.loadConfig = .ok cfg)
    (hfail : (∃ e, fetch_on_chain_metadata cp w addr = .error e) ∨
             ∃ e, fetch_token_mintdata w addr = .error e) :
    (main cp w addr).exitCode ≠ 0 ∧
    (main cp w addr).stdout = [] ∧
    ∃ e, (main cp w addr).stderrMsg = some
        ("Failed to retrieve token metadata, it\x27s likely because the token address is invalid: " ++ e) ∨
      (main cp w addr).stderrMsg = some
        ("Failed to retrieve token mint data, it\x27s likely because the token address is invalid: " ++ e) := by
  have hget : get_config w = .ok cfg := by simp [get_config, hcfg, with_context]
  cases hm : fetch_token_metadata cp w addr with
  | error e =>
    have hmain : main cp w addr =
        { exitCode := 1, stdout := [], stderrMsg := some ("Failed to retrieve token metadata, it\x27s likely because the token address is invalid: " ++ e) } := by
      simp [main, hget, hm, with_context]
    rw [hmain]
    exact ⟨by simp, rfl, ⟨e, Or.inl rfl⟩⟩
  | ok v =>
    obtain ⟨n, s, oc, d⟩ := v
    rcases hfail with ⟨e, he⟩ | ⟨e, he⟩
    · rw [fetch_token_metadata_error_of_on_chain cp w addr e he] at hm
      exact Except.noConfusion hm
    · have hmain : main cp w addr =
          { exitCode := 1, stdout := [], stderrMsg := some ("Failed to retrieve token mint data, it\x27s likely because the token address is invalid: " ++ e) } := by
        simp [main, hget, hm, he, with_context]
      rw [hmain]
      exact ⟨by simp, rfl, ⟨e, Or.inr rfl⟩⟩

/-- Witness for C1: in `wDns` every account read fails, so the run aborts
with the invalid-token diagnostic and an empty report. -/
theorem main_fatal_on_chain_failure_witness :
    (main cpW wDns addrW).exitCode ≠ 0 ∧
    (main cpW wDns addrW).stdout = [] ∧
    ∃ e, (main cpW wDns addrW).stderrMsg = some
        ("Failed to retrieve token metadata, it\x27s likely because the token address is invalid: " ++ e) ∨
      (main cpW wDns addrW).stderrMsg = some
        ("Failed to retrieve token mint data, it\x27s likely because the token address is invalid: " ++ e) :=
  main_fatal_on_chain_failure cpW wDns addrW Config.default (by decide)
    (Or.inl ⟨"Failed to load Metaplex metadata: AccountNotFound", by decide⟩)

/-- C4: every run that exits successfully printed exactly the ten labeled
report lines, in the fixed order, each optional field rendered through the
sentinel-substituting formatters applied to the data-model `Option`s only
at the formatting boundary. -/
theorem main_success_report (cp : CryptoPrims) (w : World) (addr : Pubkey)
    (h : (main cp w addr).exitCode = 0) :
    ∃ cfg name symbol oc dns mintdata,
      w.loadConfig = .ok cfg ∧
      fetch_token_metadata cp w addr = .ok (name, symbol, oc, dns) ∧
      fetch_token_mintdata w addr = .ok mintdata ∧
      (main cp w addr).stdout =
        [ "Token Name: " ++ name,
          "Token Symbol: " ++ symbol,
          "Total Supply: " ++ toString mintdata.supply,
          "Decimals: " ++ toString mintdata.decimals,
          "Mint Authority: " ++ pubkey_to_string mintdata.mint_authority,
          "Freeze Authority: " ++ pubkey_to_string mintdata.freeze_authority,
          "Token Description: " ++ string_or_not_available oc.description,
          "Token Image: " ++ string_or_not_available oc.image,
          "Token Website: " ++ string_or_not_available oc.website,
          "Number of DNS records: " ++ string_or_not_available dns ] ∧
      (main cp w addr).stdout.length = 10 := by
  cases hcfg : w.loadConfig with
  | error e =>
    have hmain : main cp w addr = { exitCode := 1, stdout := [], stderrMsg := some ("Unable to load CLI config: " ++ ("Failed to load configuration" ++ ": " ++ e)) } := by
      simp [main, get_config, hcfg, with_context]
    rw [hmain] at h
    exact absurd h (by simp)
  | ok cfg =>
    have hget : get_config w = .ok cfg := by simp [get_config, hcfg, with_context]
    cases hm : fetch_token_metadata cp w addr with
    | error e =>
      have hmain : (main cp w addr).exitCode = 1 := by
        simp [main, hget, hm, with_context]
      rw [hmain] at h
      exact absurd h (by simp)
    | ok v =>
      obtain ⟨n, s, oc, d⟩ := v
      cases hmint : fetch_token_mintdata w addr with
      | error e =>
        have hmain : (main cp w addr).exitCode = 1 := by
          simp [main, hget, hm, hmint, with_context]
        rw [hmain] at h
        exact absurd h (by simp)
      | ok mintdata =>
        have hmain : main cp w addr = RunResult.mk 0
              [ "Token Name: " ++ n,
                "Token Symbol: " ++ s,
                "Total Supply: " ++ toString mintdata.supply,
                "Decimals: " ++ toString mintdata.decimals,
                "Mint Authority: " ++ pubkey_to_string mintdata.mint_authority,
                "Freeze Authority: " ++ pubkey_to_string mintdata.freeze_authority,
                "Token Description: " ++ string_or_not_available oc.description,
                "Token Image: " ++ string_or_not_available oc.image,
                "Token Website: " ++ string_or_not_available oc.website,
                "Number of DNS records: " ++ string_or_not_available d ]
              none := by
          simp [main, hget, hm, hmint, with_context]
        refine ⟨cfg, n, s, oc, d, mintdata, rfl, rfl, rfl, ?_, ?_⟩
        · rw [hmain]
        · rw [hmain]
          rfl

/-- Witness for C4 at the all-success world `wOk`. -/
theorem main_success_report_witness :
    (main cpW wOk addrW).exitCode = 0 ∧
    (main cpW wOk addrW).stdout.length = 10 := by
  obtain ⟨cfg, n, s, oc, d, mintdata, -, -, -, -, hlen⟩ :=
    main_success_report cpW wOk addrW (by decide)
  exact ⟨by decide, hlen⟩

/-- C6: the fixed-width NUL padding is stripped before use — a successful
pipeline result carries a name and symbol with no trailing NUL, and the
URI handed to the HTTP GET inside `fetch_off_chain_metadata` is the
NUL-trimmed one, itself free of trailing NULs. -/
theorem fetch_token_metadata_strips_nuls (cp : CryptoPrims) (w : World)
    (mint : Pubkey) (n s : String) (oc : OffChainMetadata) (d : Option String)
    (h : fetch_token_metadata cp w mint = .ok (n, s, oc, d)) :
    n.data.getLast? ≠ some nulChar ∧
    s.data.getLast? ≠ some nulChar ∧
    ∀ uri, (fetch_off_chain_metadata w uri =
        (with_context "Failed to load offchain metadata"
            (w.httpGet (trim_end_matches_nul uri)) >>= fun response =>
          with_context "Failed to parse offchain metadata into JSON"
            (w.responseJson response) >>= fun m => pure m)) ∧
      (trim_end_matches_nul uri).data.getLast? ≠ some nulChar := by
  obtain ⟨md, -, hn, hs⟩ := fetch_token_metadata_ok_inv cp w mint n s oc d h
  refine ⟨?_, ?_, fun uri => ⟨rfl, trim_no_trailing_nul uri⟩⟩
  · rw [hn]; exact trim_no_trailing_nul md.name
  · rw [hs]; exact trim_no_trailing_nul md.symbol

/-- Witness for C6 at `wOk`, whose on-chain record carries NUL padding. -/
theorem fetch_token_metadata_strips_nuls_witness :
    ("Name" : String).data.getLast? ≠ some nulChar ∧
    ("SYM" : String).data.getLast? ≠ some nulChar ∧
    (trim_end_matches_nul "https://uri\x00").data.getLast? ≠ some nulChar := by
  have h := fetch_token_metadata_strips_nuls cpW wOk addrW "Name" "SYM"
    ocOk (some "2") (by decide)
  exact ⟨h.1, h.2.1, (h.2.2 "https://uri\x00").2⟩

end ProphetsCli
